import Mathlib

/-!
Verification development for the DuETT reproduction notebook
(src/dl4h_team_27.py). The Python code is shallowly embedded: tensors
become functions into the rationals, floats become rationals, the numpy
random generator becomes an explicit stream of draws, and state dicts
become association lists. Each definition cites the source lines it
embeds.
-/

set_option autoImplicit false

/-! ## Dataset: PhysioNetDataset (src/dl4h_team_27.py lines 124-207)

`PhysioNetDataset.setup` (lines 133-149) loads the data of the instance
own split (`PhysioNet2012(self.split_name, ...)`) and computes, per
feature column, the mean and the standard deviation of the non-NaN
values of that split. `PhysioNetDataModule` (lines 229-269) keeps three
such datasets (train, val, test), and each one runs its own `setup`.
A feature column of one split is modelled as the list of its non-NaN
values. -/

/-- Mean of a feature column, as computed by `vals.mean()` in
`PhysioNetDataset.setup` (line 146). Division is total on `ℚ`; the
empty column gives `0`. -/
def splitMean (xs : List ℚ) : ℚ := xs.sum / xs.length

/-- Standard deviation of a feature column, as computed by `vals.std()`
in `PhysioNetDataset.setup` (line 147): the square root of the
unbiased sample variance (denominator `n - 1`). `Rat.sqrt` is the
rational square root, exact on the perfect-square variances used in the
concrete instances below. -/
def splitStd (xs : List ℚ) : ℚ :=
  Rat.sqrt ((xs.map (fun v => (v - splitMean xs) ^ 2)).sum / ((xs.length : ℚ) - 1))

/-- The frozen per-feature statistics a dataset instance stores after
`setup` (lines 142-149; only mean and std are used by normalization). -/
structure SplitStats where
  mean : ℚ
  std : ℚ
deriving DecidableEq

/-- `PhysioNetDataset.setup` statistics computation (lines 142-149),
restricted to one feature column: the stored statistics come from the
values of the split the dataset instance itself loaded. -/
def setupStats (splitVals : List ℚ) : SplitStats :=
  ⟨splitMean splitVals, splitStd splitVals⟩

/-- The standardization applied in `PhysioNetDataset.__getitem__`
(line 173): `(x_i - self.means[i_ts]) / (self.stds[i_ts] + 1e-7)`. -/
def standardize (s : SplitStats) (x : ℚ) : ℚ :=
  (x - s.mean) / (s.std + 1 / 10000000)

/-- Standardized value produced by `__getitem__` of a dataset whose
`setup` saw the column values `splitVals`: the statistics used are the
ones of that same instance (lines 142-149 and 173). -/
def getItemStandardized (splitVals : List ℚ) (x : ℚ) : ℚ :=
  standardize (setupStats splitVals) x

/-! ## Binning (lines 162-177) -/

/-- Truncation toward zero, the semantics of the Python `int(...)`
conversion used on line 169. -/
def pyTrunc (q : ℚ) : ℤ := if q < 0 then -⌊-q⌋ else ⌊q⌋

/-- Bin index for one observation time, embedding line 169:
`bin = self.n_timesteps - 1 if t == time[-1] else int(t / time[-1] * self.n_timesteps)`. -/
def binIndex (n_timesteps : ℕ) (tmax t : ℚ) : ℕ :=
  if t = tmax then n_timesteps - 1
  else (pyTrunc (t / tmax * n_timesteps)).toNat

/-- Bin index computed from raw timestamps: line 163 rescales the raw
first column by `/ 60 / 24` before binning, and line 169 normalizes
against the last entry of the rescaled vector. -/
def binOfRaw (n_timesteps : ℕ) (rawTimes : List ℚ) (rawT : ℚ) : ℕ :=
  binIndex n_timesteps (rawTimes.getLastD 0 / 60 / 24) (rawT / 60 / 24)

/-! ## Time-series grid construction (lines 165-174)

`__getitem__` fills `x_ts` (a `n_timesteps x 72` tensor, value half and
count half) by iterating the observation rows in order: for each row it
computes the bin of the row time and then, for each time-series column
`i_ts` in `1..36` whose entry is not NaN, it assigns the standardized
value into `x_ts[bin, i_ts - 1]` (overwriting) and adds `1` to
`x_ts[bin, i_ts - 1 + 36]`. A row is modelled as the raw time together
with the list of the 36 optional (NaN = `none`) column entries. -/

/-- The mutable tensor `x_ts`, split into its value half and count
half, as functions of (bin, column). -/
structure TSGrid where
  val : ℕ → ℕ → ℚ
  cnt : ℕ → ℕ → ℚ

/-- The all-zero tensor created on line 165. -/
def emptyGrid : TSGrid := ⟨fun _ _ => 0, fun _ _ => 0⟩

/-- One non-NaN observation hitting cell `(b, j)`: assignment of the
standardized value (line 173) and increment of the count (line 174). -/
def writeCell (g : TSGrid) (b j : ℕ) (x : ℚ) : TSGrid :=
  ⟨fun b' j' => if b' = b ∧ j' = j then x else g.val b' j',
   fun b' j' => if b' = b ∧ j' = j then g.cnt b' j' + 1 else g.cnt b' j'⟩

/-- The inner loop over `i_ts in range(1, 37)` (lines 170-174) for the
row entries `vals`, with `j` the zero-based column of the head entry;
the statistics index of column `j` is `j + 1` as on line 173. -/
def processVals (stats : ℕ → SplitStats) (b : ℕ) : ℕ → List (Option ℚ) → TSGrid → TSGrid
  | _, [], g => g
  | j, none :: rest, g => processVals stats b (j + 1) rest g
  | j, some x :: rest, g =>
      processVals stats b (j + 1) rest (writeCell g b j (standardize (stats (j + 1)) x))

/-- One iteration of the outer loop over observation rows
(lines 168-174): bin the row time, then run the inner column loop.
`tmaxDays` is the already rescaled `time[-1]`. -/
def processRow (stats : ℕ → SplitStats) (T : ℕ) (tmaxDays : ℚ)
    (g : TSGrid) (row : ℚ × List (Option ℚ)) : TSGrid :=
  processVals stats (binIndex T tmaxDays (row.1 / 60 / 24)) 0 row.2 g

/-- The full `x_ts` construction of `__getitem__` (lines 165-174). -/
def buildTS (stats : ℕ → SplitStats) (T : ℕ) (rows : List (ℚ × List (Option ℚ))) : TSGrid :=
  rows.foldl (processRow stats T ((rows.map Prod.fst).getLastD 0 / 60 / 24)) emptyGrid

/-- The raw (pre-standardization) values of the observations that land
in cell `(b, j)`, in processing order: the rows whose time bins to `b`
and whose column `j` entry is not NaN. -/
def cellHits (T : ℕ) (tmaxDays : ℚ) (rows : List (ℚ × List (Option ℚ))) (b j : ℕ) : List ℚ :=
  rows.filterMap (fun row =>
    if binIndex T tmaxDays (row.1 / 60 / 24) = b then (row.2[j]?).join else none)

/-! ## Masking policy: Model.pretrain_prep_batch (lines 597-606)

The per-record choice of `mask_i`. The numpy generator is embedded as an
explicit stream `draw : ℕ → ℕ` of draws; `self.rng.choice(np.arange(n),
size=k)` samples WITH replacement (the numpy default), so each of the
`k` positions is an independent draw from `0..n-1`, modelled as
`draw k % n`: every tuple of indices below `n` is a reachable outcome.
The scalar form `self.rng.choice(np.arange(0, n))` is one such draw. -/

/-- Embedding of the `mask_i` selection of `pretrain_prep_batch`
(lines 598-606), returned as the list of selected row indices:
line 599 `mask_i = n` when `n < 2`; lines 601-604 for the multi-step
branch; line 606 for the single-step branch. -/
def maskSelect (pretrain_masked_steps n : ℕ) (draw : ℕ → ℕ) : List ℕ :=
  if n < 2 then [n]
  else if 1 < pretrain_masked_steps then
    if n < pretrain_masked_steps then List.range n
    else (List.range pretrain_masked_steps).map (fun k => draw k % n)
  else [draw 0 % n]

/-! ## Model construction: Model.__init__ (lines 409-533)

The transformer stack configuration computed on lines 466-484. There is
no validation of `d_embedding` against `n_transformer_head` anywhere in
`Model.__init__`; the constructor always produces the configuration
below, with `attn_dim_head = d_embedding // n_transformer_head`
(floored natural division). `x_transformers.Encoder` takes
`attn_dim_head` as an independent argument, so no divisibility
constraint is checked later either. -/

/-- The arguments `Model.__init__` passes to `x_transformers.Encoder`
that depend on the embedding dimension and head count (lines 470-484). -/
structure EncoderCfg where
  dim : ℕ
  heads : ℕ
  attn_dim_head : ℕ
deriving DecidableEq

/-- The (event transformer, time transformer) configurations built by
`Model.__init__`: `et_dim = d_embedding * (masked_transform_timesteps + 1)`,
`tt_dim = d_embedding * (d_time_series_num + 1)` (lines 466-467), and
`attn_dim_head = d_embedding // n_transformer_head` (lines 472, 482).
The construction is total: no configuration error is raised. -/
def initEncoderCfgs (d_embedding n_transformer_head masked_transform_timesteps
    d_time_series_num : ℕ) : EncoderCfg × EncoderCfg :=
  (⟨d_embedding * (masked_transform_timesteps + 1), n_transformer_head,
    d_embedding / n_transformer_head⟩,
   ⟨d_embedding * (d_time_series_num + 1), n_transformer_head,
    d_embedding / n_transformer_head⟩)

/-! ## Forward pass, embedding step: Model.forward (lines 638-694)

The input batch is the triple produced by `feats_to_input`: the static
tensor, the time-series tensor `xs_feats` with `2 * n_vars + 1` columns
(value half, count half, trailing mask-flag column), and the bin-time
vector. Tensors are functions of their indices into `ℚ`. The learned
weights that the embedding step reads (special-token table, per-variable
embedding MLPs, count-embedding table, tabular encoder) are carried as
opaque function-valued parameters of the model. -/

/-- The learned components of `Model` read by the embedding step:
`special_embeddings` (line 451, key 0 = MASKED, key 1 = REPRESENTATION,
lines 447-448), `embedding_layers` (lines 454-456, here a function of
the variable index and the two scalar inputs), `n_obs_embedding`
(line 459, a 16-entry table of scalars), and `tab_encoder`
(lines 517-518). -/
structure ModelEmbed where
  predictEvents : Bool
  nObsEmbedding : ℕ → ℚ
  specialEmbeddings : ℕ → ℕ → ℚ
  embeddingLayers : ℕ → ℚ → ℚ → ℕ → ℚ
  tabEncoder : (ℕ → ℚ) → ℕ → ℚ

/-- The batch produced by `feats_to_input` (lines 553-585): static
tensor (batch, feature), time-series tensor (batch, row, column), and
bin-time vector (batch, row). -/
structure BatchState where
  static : ℕ → ℕ → ℚ
  feats : ℕ → ℕ → ℕ → ℚ
  times : ℕ → ℕ → ℚ

/-- The count-embedding index of line 657:
`xs_feats[...].to(int).clip(0, self.n_obs_embedding.num_embeddings - 1)`
with 16 embeddings; `.to(int)` truncates toward zero. -/
def nObsInd (q : ℚ) : ℕ := (min 15 (max 0 (pyTrunc q))).toNat

/-- The in-place write `Model.forward` performs on its input batch
(line 660): the count half of the time-series tensor is overwritten with
the looked-up count embeddings. Nothing else in `forward` writes to the
input batch, so the static tensor and the bin-time vector pass through
unchanged. -/
def forwardBatchEffect (p : ModelEmbed) (nVars : ℕ) (x : BatchState) : BatchState :=
  { x with feats := fun b r c =>
      if nVars ≤ c ∧ c < 2 * nVars then p.nObsEmbedding (nObsInd (x.feats b r c))
      else x.feats b r c }

/-- One scalar cell of the embedding tensor `psi` right after the
masking writes (lines 663-688), indexed by (batch `b`, row `r`, column
`c`, embedding coordinate `d`) with `nRows` real rows and `nVars`
time-series variables. The branches read off the final value of the
sequence of tensor writes, last write first: the event-mask overwrite
(lines 687-688, mask tensor built on lines 651-654 from the count half
of the original input, with the first row copied onto the synthetic
row), the bin-mask overwrite (lines 681-684, triggered by the trailing
flag column, real rows only), the synthetic representation row
(line 678), the static column (line 675), and the per-variable
embedding layers applied to the value and the embedded count
(lines 663-672). -/
def psiCell (p : ModelEmbed) (x : BatchState) (nRows nVars : ℕ) (b r c d : ℕ) : ℚ :=
  if p.predictEvents = true ∧ r ≤ nRows ∧ c < nVars ∧
      x.feats b (if r = nRows then 0 else r) (nVars + c) = -1 then
    p.specialEmbeddings 0 d
  else if r < nRows ∧ x.feats b r (2 * nVars) = 1 then
    p.specialEmbeddings 0 d
  else if r = nRows then
    p.specialEmbeddings 1 d
  else if r < nRows ∧ c = nVars then
    p.tabEncoder (x.static b) d
  else if r < nRows ∧ c < nVars then
    p.embeddingLayers c ((forwardBatchEffect p nVars x).feats b r c)
      ((forwardBatchEffect p nVars x).feats b r (nVars + c)) d
  else 0

/-- The `averaging` fusion branch (lines 724-725):
`z_ts = torch.mean(transformed[:, :-1, :], dim=1)`, the mean over all
rows of the flattened transformed tensor except the last (synthetic)
one, for one batch element; `nRowsTotal` is the full row count
including the synthetic row, and `d` indexes the flattened embedding. -/
def fusionAveraging (transformed : ℕ → ℕ → ℚ) (nRowsTotal d : ℕ) : ℚ :=
  (∑ r ∈ Finset.range (nRowsTotal - 1), transformed r d) / (nRowsTotal - 1)

/-! ## Checkpoint loading: Model.on_load_checkpoint (lines 919-950)

State dicts are association lists from parameter names to parameters (a
shape and a flat value list). The method first copies every entry of
the current model state dict that is missing from the checkpoint into
the checkpoint dict (lines 926-929), then walks the resulting dict: a
key present in the model whose name starts with `head` and whose shape
differs is replaced by the freshly initialized model value and reported
(lines 932-939); a key absent from the model is only reported
(lines 940-942) - no statement removes it from the dict. -/

/-- A checkpoint tensor: its shape and its flattened values. -/
structure CkptParam where
  shape : List ℕ
  vals : List ℚ
deriving DecidableEq

/-- A state dict, in insertion order. -/
abbrev StateDict := List (String × CkptParam)

/-- Python dict key lookup: first entry with the given key. -/
def sdLookup (sd : StateDict) (k : String) : Option CkptParam :=
  (sd.find? (fun kv => kv.1 == k)).map Prod.snd

/-- The prefix tested by `k.startswith(head)` on line 934. -/
def headStr : String := "head"

/-- The test `k.startswith(head)` of line 934: the characters of
`head` are an initial segment of the characters of `k`. -/
def startsWithHead (k : String) : Bool := headStr.data.isPrefixOf k.data

/-- Lines 926-929: every model key missing from the checkpoint dict is
inserted with the freshly initialized model value (Python dict
insertion appends in iteration order). -/
def loadPhase1 (ckpt model : StateDict) : StateDict :=
  ckpt ++ model.filter (fun kv => (sdLookup ckpt kv.1).isNone)

/-- The per-key effect of lines 932-942 on the stored parameter: a key
the model also has whose name starts with `head` and whose shape
differs is replaced by the freshly initialized model value (line 938);
every other entry - including a key absent from the model
(lines 940-942, which only print) - keeps its value. -/
def ckptTransform (model : StateDict) (k : String) (v : CkptParam) : CkptParam :=
  match sdLookup model k with
  | some mv => if startsWithHead k && v.shape != mv.shape then mv else v
  | none => v

/-- Whether lines 932-942 print an adjustment report for the key: a
skipped head parameter (lines 935-937) or a parameter absent from the
model (line 941). -/
def ckptReportB (model : StateDict) (k : String) (v : CkptParam) : Bool :=
  match sdLookup model k with
  | some mv => startsWithHead k && v.shape != mv.shape
  | none => true

/-- Lines 932-942, applied over the whole (augmented) checkpoint dict:
only values change, never the key set. -/
def loadPhase2 (model : StateDict) (sd : StateDict) : StateDict :=
  sd.map (fun kv => (kv.1, ckptTransform model kv.1 kv.2))

/-- The keys reported by the prints of lines 935-937 and 941. -/
def loadReports (model : StateDict) (sd : StateDict) : List String :=
  sd.filterMap (fun kv => if ckptReportB model kv.1 kv.2 then some kv.1 else none)

/-- The final state dict `on_load_checkpoint` leaves in the checkpoint
(lines 919-946). -/
def onLoadCheckpoint (model ckpt : StateDict) : StateDict :=
  loadPhase2 model (loadPhase1 ckpt model)

/-- The keys `on_load_checkpoint` reports adjustments for. -/
def onLoadReportKeys (model ckpt : StateDict) : List String :=
  loadReports model (loadPhase1 ckpt model)

/-! ## Helper lemmas -/

/-- Shifting every value of a column shifts its mean by the same
amount. -/
lemma sum_map_add_const (xs : List ℚ) (δ : ℚ) :
    (xs.map (fun v => v + δ)).sum = xs.sum + xs.length * δ := by
  induction xs with
  | nil => simp
  | cons a t ih =>
      simp only [List.map_cons, List.sum_cons, List.length_cons, ih]
      push_cast
      ring

/-- Shifting every value of a column shifts its mean by the same
amount. -/
lemma splitMean_shift (xs : List ℚ) (δ : ℚ) (h : xs ≠ []) :
    splitMean (xs.map (fun v => v + δ)) = splitMean xs + δ := by
  have hn : (xs.length : ℚ) ≠ 0 := by
    exact_mod_cast fun hl => h (List.length_eq_zero.mp hl)
  unfold splitMean
  rw [List.length_map, sum_map_add_const, add_div]
  congr 1
  rw [mul_comm, mul_div_assoc, div_self hn, mul_one]

/-- Shifting every value of a column leaves its standard deviation
unchanged. -/
lemma splitStd_shift (xs : List ℚ) (δ : ℚ) (h : xs ≠ []) :
    splitStd (xs.map (fun v => v + δ)) = splitStd xs := by
  unfold splitStd
  rw [List.length_map, splitMean_shift xs δ h, List.map_map]
  have : ((fun v => (v - (splitMean xs + δ)) ^ 2) ∘ fun v => v + δ)
      = fun v => (v - splitMean xs) ^ 2 := by
    funext v
    simp only [Function.comp]
    ring
  rw [this]

/-! ## C1 -/

/-- C1: the claim that a validation record is standardized with the
frozen statistics of the training split fails on the code: each
dataset instance standardizes with the statistics its own `setup`
computed from its own split (lines 136-149, 173). Concretely, with
training column values `[0, 6, 12]` and validation column values
`[10, 16, 22]` (same standard deviation 6, different means), the
validation record value `10` standardizes differently from what the
frozen training statistics would give. -/
theorem C1_counterexample :
    getItemStandardized [10, 16, 22] 10 ≠ standardize (setupStats [0, 6, 12]) 10 := by
  have h1 : splitMean [10, 16, 22] = 16 := by norm_num [splitMean]
  have h2 : splitMean [0, 6, 12] = 6 := by norm_num [splitMean]
  have hs1 : splitStd [10, 16, 22] = 6 := by
    have hv : ((([10, 16, 22] : List ℚ).map
        (fun v => (v - splitMean [10, 16, 22]) ^ 2)).sum
          / ((([10, 16, 22] : List ℚ).length : ℚ) - 1)) = 36 := by
      rw [h1]; norm_num
    unfold splitStd
    rw [hv, show (36 : ℚ) = 6 * 6 by norm_num, Rat.sqrt_eq]
    norm_num
  have hs2 : splitStd [0, 6, 12] = 6 := by
    have hv : ((([0, 6, 12] : List ℚ).map
        (fun v => (v - splitMean [0, 6, 12]) ^ 2)).sum
          / ((([0, 6, 12] : List ℚ).length : ℚ) - 1)) = 36 := by
      rw [h2]; norm_num
    unfold splitStd
    rw [hv, show (36 : ℚ) = 6 * 6 by norm_num, Rat.sqrt_eq]
    norm_num
  unfold getItemStandardized setupStats standardize
  simp only [h1, h2, hs1, hs2]
  norm_num

/-- C1 (amended): standardization of a record uses the per-feature mean
and standard deviation computed by its own dataset instance over that
instance split; the standardized output depends only on the record and
these own-split statistics, and deliberately shifting that split (hence
its stored mean) by `δ` shifts the standardized value exactly
correspondingly: a record shifted along with its split standardizes
identically, and an unshifted value loses exactly
`δ / (std + 1e-7)`. -/
theorem C1_ownSplitStandardization (xs : List ℚ) (x δ : ℚ) (h : xs ≠ []) :
    getItemStandardized (xs.map (fun v => v + δ)) (x + δ) = getItemStandardized xs x ∧
    getItemStandardized (xs.map (fun v => v + δ)) x
      = getItemStandardized xs x - δ / (splitStd xs + 1 / 10000000) := by
  have hm := splitMean_shift xs δ h
  have hs := splitStd_shift xs δ h
  unfold getItemStandardized setupStats standardize
  simp only [hm, hs]
  constructor
  · rw [show x + δ - (splitMean xs + δ) = x - splitMean xs from by ring]
  · rw [show x - (splitMean xs + δ) = x - splitMean xs - δ from by ring, sub_div]

/-- Witness for C1: the amended statement at the split `[0, 2]`, record
value `1`, shift `5`. -/
theorem C1_ownSplitStandardization_witness :
    ([0, 2] : List ℚ) ≠ [] ∧
    (getItemStandardized (([0, 2] : List ℚ).map (fun v => v + 5)) (1 + 5)
        = getItemStandardized [0, 2] 1 ∧
      getItemStandardized (([0, 2] : List ℚ).map (fun v => v + 5)) 1
        = getItemStandardized [0, 2] 1 - 5 / (splitStd [0, 2] + 1 / 10000000)) :=
  ⟨by decide, C1_ownSplitStandardization [0, 2] 1 5 (by decide)⟩

/-! ## C5 -/

/-- C5: the binner maps the last raw observation of a record to bin
index `T - 1` and never to `T`: line 169 tests `t == time[-1]` first
and returns `T - 1` directly, so no rounding of the division can ever
push the final observation into bin `T`. -/
theorem C5_lastObservationBin (T : ℕ) (rawTimes : List ℚ) (hT : 1 ≤ T) :
    binOfRaw T rawTimes (rawTimes.getLastD 0) = T - 1 ∧
    binOfRaw T rawTimes (rawTimes.getLastD 0) < T := by
  have h : binOfRaw T rawTimes (rawTimes.getLastD 0) = T - 1 := by
    unfold binOfRaw binIndex
    simp
  exact ⟨h, h ▸ Nat.sub_lt (lt_of_lt_of_le one_pos hT) one_pos⟩

/-- Witness for C5: the boundary example of the spec, timestamps
`[0, 10, 59.999]` with `T = 4` normalized against the maximum
`59.999`: the final observation lands in bin `3`, not `4`. -/
theorem C5_lastObservationBin_witness :
    (1 : ℕ) ≤ 4 ∧
    binOfRaw 4 [0, 10, (59999 : ℚ) / 1000]
      (([0, 10, (59999 : ℚ) / 1000] : List ℚ).getLastD 0) = 3 :=
  ⟨by decide, (C5_lastObservationBin 4 [0, 10, (59999 : ℚ) / 1000] (by decide)).1⟩

/-! ## C10: per-cell characterization of the grid construction -/

/-- Proof-side helper: the value the inner column loop writes at column
`j'` when it starts at column `j0` on the entries `vals` (if any). -/
def colWrite (vals : List (Option ℚ)) (j0 j' : ℕ) : Option ℚ :=
  if j0 ≤ j' then (vals[j' - j0]?).join else none

lemma colWrite_nil (j0 j' : ℕ) : colWrite [] j0 j' = none := by
  simp [colWrite]

lemma colWrite_zero (vals : List (Option ℚ)) (j : ℕ) :
    colWrite vals 0 j = (vals[j]?).join := by
  simp [colWrite]

lemma colWrite_cons (v : Option ℚ) (rest : List (Option ℚ)) (j0 j' : ℕ) :
    colWrite (v :: rest) j0 j' = if j' = j0 then v else colWrite rest (j0 + 1) j' := by
  unfold colWrite
  by_cases h : j' = j0
  · subst h
    simp
  · by_cases h0 : j0 ≤ j'
    · have h1 : j0 + 1 ≤ j' := Nat.lt_of_le_of_ne h0 (Ne.symm h)
      rw [if_pos h0, if_pos h1, if_neg h]
      rw [show j' - j0 = (j' - (j0 + 1)) + 1 from by omega]
      simp
    · have h1 : ¬ j0 + 1 ≤ j' := by omega
      rw [if_neg h0, if_neg h, if_neg h1]

/-- The inner column loop, value half: it writes the standardized entry
of column `j'` when the row carries one and the row bin matches, and
leaves the cell alone otherwise. -/
lemma processVals_val (stats : ℕ → SplitStats) (bq : ℕ) (vals : List (Option ℚ)) :
    ∀ (j0 : ℕ) (g : TSGrid) (b' j' : ℕ),
      (processVals stats bq j0 vals g).val b' j'
        = if b' = bq then
            (colWrite vals j0 j').elim (g.val b' j')
              (fun x => standardize (stats (j' + 1)) x)
          else g.val b' j' := by
  induction vals with
  | nil =>
      intro j0 g b' j'
      simp [processVals, colWrite_nil, Option.elim]
  | cons v rest ih =>
      intro j0 g b' j'
      cases v with
      | none =>
          simp only [processVals]
          rw [ih (j0 + 1) g b' j', colWrite_cons]
          by_cases h : j' = j0
          · subst h
            have : colWrite rest (j' + 1) j' = none := by
              unfold colWrite
              rw [if_neg (by omega)]
            simp [this]
          · simp [h]
      | some x =>
          simp only [processVals]
          rw [ih (j0 + 1) _ b' j', colWrite_cons]
          by_cases hb : b' = bq
          · by_cases h : j' = j0
            · subst h
              have hcw : colWrite rest (j' + 1) j' = none := by
                unfold colWrite
                rw [if_neg (by omega)]
              simp [hb, hcw, writeCell]
            · cases hcw : colWrite rest (j0 + 1) j' with
              | none => simp [hb, h, hcw, writeCell]
              | some y => simp [hb, h, hcw]
          · simp [hb, writeCell]

/-- The inner column loop, count half: the count of a matching cell
goes up by exactly one, all other cells are untouched. -/
lemma processVals_cnt (stats : ℕ → SplitStats) (bq : ℕ) (vals : List (Option ℚ)) :
    ∀ (j0 : ℕ) (g : TSGrid) (b' j' : ℕ),
      (processVals stats bq j0 vals g).cnt b' j'
        = if b' = bq ∧ (colWrite vals j0 j').isSome then g.cnt b' j' + 1
          else g.cnt b' j' := by
  induction vals with
  | nil =>
      intro j0 g b' j'
      simp [processVals, colWrite_nil]
  | cons v rest ih =>
      intro j0 g b' j'
      cases v with
      | none =>
          simp only [processVals]
          rw [ih (j0 + 1) g b' j', colWrite_cons]
          by_cases h : j' = j0
          · subst h
            have : colWrite rest (j' + 1) j' = none := by
              unfold colWrite
              rw [if_neg (by omega)]
            simp [this]
          · simp [h]
      | some x =>
          simp only [processVals]
          rw [ih (j0 + 1) _ b' j', colWrite_cons]
          by_cases hb : b' = bq
          · by_cases h : j' = j0
            · subst h
              have hcw : colWrite rest (j' + 1) j' = none := by
                unfold colWrite
                rw [if_neg (by omega)]
              simp [hb, hcw, writeCell]
            · cases hcw : colWrite rest (j0 + 1) j' with
              | none => simp [hb, h, hcw, writeCell]
              | some y => simp [hb, h, hcw, writeCell]
          · simp [hb, writeCell]

/-- One outer-loop iteration, value half, read at one cell. -/
lemma processRow_val (stats : ℕ → SplitStats) (T : ℕ) (tmd : ℚ)
    (g : TSGrid) (row : ℚ × List (Option ℚ)) (b j : ℕ) :
    (processRow stats T tmd g row).val b j
      = if b = binIndex T tmd (row.1 / 60 / 24)
        then ((row.2[j]?).join).elim (g.val b j)
          (fun x => standardize (stats (j + 1)) x)
        else g.val b j := by
  unfold processRow
  rw [processVals_val, colWrite_zero]

/-- One outer-loop iteration, count half, read at one cell. -/
lemma processRow_cnt (stats : ℕ → SplitStats) (T : ℕ) (tmd : ℚ)
    (g : TSGrid) (row : ℚ × List (Option ℚ)) (b j : ℕ) :
    (processRow stats T tmd g row).cnt b j
      = if b = binIndex T tmd (row.1 / 60 / 24) ∧ ((row.2[j]?).join).isSome
        then g.cnt b j + 1
        else g.cnt b j := by
  unfold processRow
  rw [processVals_cnt, colWrite_zero]

/-- Value half of the grid after the outer row loop: the cell holds the
standardized last hit, or the initial content when no observation hit
it. -/
lemma foldRows_val (stats : ℕ → SplitStats) (T : ℕ) (tmd : ℚ)
    (rows : List (ℚ × List (Option ℚ))) (g : TSGrid) (b j : ℕ) :
    (rows.foldl (processRow stats T tmd) g).val b j
      = (cellHits T tmd rows b j).getLast?.elim (g.val b j)
          (fun x => standardize (stats (j + 1)) x) := by
  induction rows using List.reverseRecOn with
  | nil => simp [cellHits, Option.elim]
  | append_singleton rs row ih =>
      rw [List.foldl_append, List.foldl_cons, List.foldl_nil, processRow_val]
      have hsplit : cellHits T tmd (rs ++ [row]) b j
          = cellHits T tmd rs b j ++ cellHits T tmd [row] b j := by
        unfold cellHits
        rw [List.filterMap_append]
      rw [hsplit]
      by_cases hbin : binIndex T tmd (row.1 / 60 / 24) = b
      · cases hj : (row.2[j]?).join with
        | none =>
            have hsing : cellHits T tmd [row] b j = [] := by
              simp only [cellHits, List.filterMap_cons, List.filterMap_nil]
              rw [if_pos hbin, hj]
            rw [hsing, List.append_nil, if_pos hbin.symm, Option.elim_none]
            exact ih
        | some y =>
            have hsing : cellHits T tmd [row] b j = [y] := by
              simp only [cellHits, List.filterMap_cons, List.filterMap_nil]
              rw [if_pos hbin, hj]
            rw [hsing, List.getLast?_concat, if_pos hbin.symm]
            simp only [Option.elim_some]
      · have hsing : cellHits T tmd [row] b j = [] := by
          simp only [cellHits, List.filterMap_cons, List.filterMap_nil]
          rw [if_neg hbin]
        rw [hsing, List.append_nil, if_neg (fun hh => hbin hh.symm)]
        exact ih

/-- Count half of the grid after the outer row loop: each observation
hitting the cell adds exactly one. -/
lemma foldRows_cnt (stats : ℕ → SplitStats) (T : ℕ) (tmd : ℚ)
    (rows : List (ℚ × List (Option ℚ))) (g : TSGrid) (b j : ℕ) :
    (rows.foldl (processRow stats T tmd) g).cnt b j
      = g.cnt b j + ((cellHits T tmd rows b j).length : ℚ) := by
  induction rows using List.reverseRecOn with
  | nil => simp [cellHits]
  | append_singleton rs row ih =>
      rw [List.foldl_append, List.foldl_cons, List.foldl_nil, processRow_cnt]
      have hsplit : cellHits T tmd (rs ++ [row]) b j
          = cellHits T tmd rs b j ++ cellHits T tmd [row] b j := by
        unfold cellHits
        rw [List.filterMap_append]
      rw [hsplit, List.length_append]
      by_cases hbin : binIndex T tmd (row.1 / 60 / 24) = b
      · cases hj : (row.2[j]?).join with
        | none =>
            have hsing : cellHits T tmd [row] b j = [] := by
              simp only [cellHits, List.filterMap_cons, List.filterMap_nil]
              rw [if_pos hbin, hj]
            rw [hsing, if_neg (by simp [hj]), ih]
            simp
        | some y =>
            have hsing : cellHits T tmd [row] b j = [y] := by
              simp only [cellHits, List.filterMap_cons, List.filterMap_nil]
              rw [if_pos hbin, hj]
            rw [hsing, if_pos ⟨hbin.symm, by simp [hj]⟩, ih]
            simp only [List.length_singleton]
            push_cast
            ring
      · have hsing : cellHits T tmd [row] b j = [] := by
          simp only [cellHits, List.filterMap_cons, List.filterMap_nil]
          rw [if_neg hbin]
        rw [hsing, if_neg (fun hh => hbin hh.1.symm), ih]
        simp

/-- C10: when several observations of the same event type fall into the
same time bin, the stored value of that cell is the standardized value
of the last-processed observation (line 173 assigns, it does not
average), and the stored count is incremented by exactly one per
observation (line 174), i.e. it equals the number of observations that
hit the cell. -/
theorem C10_lastWriteValue_sumCount (stats : ℕ → SplitStats) (T : ℕ)
    (rows : List (ℚ × List (Option ℚ))) (b j : ℕ) (x : ℚ)
    (h : (cellHits T ((rows.map Prod.fst).getLastD 0 / 60 / 24) rows b j).getLast?
          = some x) :
    (buildTS stats T rows).val b j = standardize (stats (j + 1)) x ∧
    (buildTS stats T rows).cnt b j
      = ((cellHits T ((rows.map Prod.fst).getLastD 0 / 60 / 24) rows b j).length : ℚ) := by
  unfold buildTS
  constructor
  · rw [foldRows_val, h, Option.elim_some]
  · rw [foldRows_cnt]
    simp [emptyGrid]

/-- Witness for C10: two observations of event type 1 (column 0), both
at raw time 0, land in the same bin 3 (of T = 4); the value cell holds
the standardized second observation 10 and the count cell holds 2. -/
theorem C10_lastWriteValue_sumCount_witness :
    (cellHits 4 ((([((0 : ℚ), [some (2 : ℚ)]), (0, [some 10])].map Prod.fst).getLastD 0)
        / 60 / 24) [((0 : ℚ), [some (2 : ℚ)]), (0, [some 10])] 3 0).getLast? = some 10 ∧
    ((buildTS (fun _ => ⟨0, 1⟩) 4 [((0 : ℚ), [some (2 : ℚ)]), (0, [some 10])]).val 3 0
        = standardize ((fun _ => (⟨0, 1⟩ : SplitStats)) (0 + 1)) 10 ∧
      (buildTS (fun _ => ⟨0, 1⟩) 4 [((0 : ℚ), [some (2 : ℚ)]), (0, [some 10])]).cnt 3 0
        = ((cellHits 4 ((([((0 : ℚ), [some (2 : ℚ)]), (0, [some 10])].map
            Prod.fst).getLastD 0) / 60 / 24)
            [((0 : ℚ), [some (2 : ℚ)]), (0, [some 10])] 3 0).length : ℚ)) :=
  ⟨by norm_num [cellHits, binIndex, List.filterMap_cons, Option.join],
   C10_lastWriteValue_sumCount (fun _ => ⟨0, 1⟩) 4
    [((0 : ℚ), [some (2 : ℚ)]), (0, [some 10])] 3 0 10
    (by norm_num [cellHits, binIndex, List.filterMap_cons, Option.join])⟩

/-! ## C3 and C4: masking policy -/

/-- C3: the claim that a record with fewer than 2 real bins has all its
real bins masked fails on the code: line 599 sets `mask_i = n`, the
single row index `n` itself. For `n = 1` the masked row is index 1 - a
padding row - while the only real bin, index 0, is not selected. -/
theorem C3_counterexample :
    maskSelect 3 1 (fun _ => 0) = [1] ∧
    (0 : ℕ) ∉ maskSelect 3 1 (fun _ => 0) ∧ ¬ (1 : ℕ) < 1 := by
  decide

/-- C3 (amended): in `Model.pretrain_prep_batch`, for every record with
`n < 2` real time bins the masking policy selects exactly the single
row index `n` (one past the last real bin: a padding row, not a real
bin); in particular for `n = 1` the real bin 0 is not masked. -/
theorem C3_masksRowN (steps n : ℕ) (draw : ℕ → ℕ) (h : n < 2) :
    maskSelect steps n draw = [n] := by
  unfold maskSelect
  rw [if_pos h]

/-- Witness for C3 at `n = 1`. -/
theorem C3_masksRowN_witness :
    (1 : ℕ) < 2 ∧ maskSelect 3 1 (fun _ => 0) = [1] :=
  ⟨by decide, C3_masksRowN 3 1 (fun _ => 0) (by decide)⟩

/-- C4: the claim that multi-step masking samples pairwise-distinct bin
indices without replacement fails on the code: line 604 calls
`rng.choice(np.arange(n), size=steps)` with the numpy default
`replace=True`, so a repeated index is a reachable outcome. With
`steps = 2`, `n = 3` and the generator draws all equal, the selection
is `[0, 0]`, which is not pairwise distinct. -/
theorem C4_counterexample :
    maskSelect 2 3 (fun _ => 0) = [0, 0] ∧
    ¬ (maskSelect 2 3 (fun _ => 0)).Nodup := by
  decide

/-- C4 (amended): in multi-step pretraining mode
(`pretrain_masked_steps > 1`), for every record with `n ≥ 2` real bins:
when `n < pretrain_masked_steps` the policy masks all `n` real bins;
when `pretrain_masked_steps ≤ n` it selects exactly
`pretrain_masked_steps` bin indices, each in `[0, n)`, sampled with
replacement (duplicates possible, not pairwise distinct). -/
theorem C4_withReplacement (steps n : ℕ) (draw : ℕ → ℕ) (h2 : 2 ≤ n) (hs : 1 < steps) :
    (n < steps → maskSelect steps n draw = List.range n) ∧
    (steps ≤ n →
      (maskSelect steps n draw).length = steps ∧
      ∀ b ∈ maskSelect steps n draw, b < n) := by
  unfold maskSelect
  rw [if_neg (by omega), if_pos hs]
  constructor
  · intro hlt
    rw [if_pos hlt]
  · intro hle
    rw [if_neg (by omega)]
    refine ⟨by simp, ?_⟩
    intro b hb
    simp only [List.mem_map] at hb
    obtain ⟨k, _, hk⟩ := hb
    rw [← hk]
    exact Nat.mod_lt _ (by omega)

/-- Witness for C4 at `steps = 2`, `n = 3`. -/
theorem C4_withReplacement_witness :
    (2 : ℕ) ≤ 3 ∧ (1 : ℕ) < 2 ∧
    ((3 < 2 → maskSelect 2 3 (fun k => k) = List.range 3) ∧
      (2 ≤ 3 → (maskSelect 2 3 (fun k => k)).length = 2 ∧
        ∀ b ∈ maskSelect 2 3 (fun k => k), b < 3)) :=
  ⟨by decide, by decide, C4_withReplacement 2 3 (fun k => k) (by decide) (by decide)⟩

/-! ## C8: no divisibility validation at construction -/

/-- C8: the claim that a `d_embedding` not divisible by
`n_transformer_head` makes construction fail fails on the code:
`Model.__init__` raises no configuration error; with `d_embedding = 25`
and `n_transformer_head = 2` it silently constructs the encoders with
the floored `attn_dim_head = 12`, and `12 * 2 ≠ 25`. -/
theorem C8_counterexample :
    initEncoderCfgs 25 2 32 36 = (⟨825, 2, 12⟩, ⟨925, 2, 12⟩) ∧
    ¬ (2 ∣ 25) ∧ (12 : ℕ) * 2 ≠ 25 := by
  decide

/-- C8 (amended): construction never validates divisibility: for every
configuration it succeeds and sets
`attn_dim_head = d_embedding // n_transformer_head` in both transformer
stacks; when the head count does not divide the embedding dimension the
coercion is lossy (`attn_dim_head * n_transformer_head ≠ d_embedding`)
rather than an error, at construction or any later time. -/
theorem C8_silentFloor (d h m v : ℕ) (hnd : ¬ h ∣ d) :
    (initEncoderCfgs d h m v).1.attn_dim_head = d / h ∧
    (initEncoderCfgs d h m v).2.attn_dim_head = d / h ∧
    (initEncoderCfgs d h m v).1.attn_dim_head * h ≠ d := by
  refine ⟨rfl, rfl, fun hEq => ?_⟩
  have hEq' : d / h * h = d := hEq
  exact hnd ⟨d / h, by rw [Nat.mul_comm h (d / h), hEq']⟩

/-- Witness for C8 at `d_embedding = 25`, `n_transformer_head = 2`. -/
theorem C8_silentFloor_witness :
    ¬ (2 ∣ 25) ∧
    ((initEncoderCfgs 25 2 32 36).1.attn_dim_head = 25 / 2 ∧
      (initEncoderCfgs 25 2 32 36).2.attn_dim_head = 25 / 2 ∧
      (initEncoderCfgs 25 2 32 36).1.attn_dim_head * 2 ≠ 25) :=
  ⟨by decide, C8_silentFloor 25 2 32 36 (by decide)⟩

/-! ## C9: averaging fusion is idempotent on constant grids -/

/-- C9: for fusion method `averaging` (line 725), if every real
time-bin row of the final transformed tensor carries the same vector
`v` at coordinate `d` (the synthetic representation row, excluded from
the mean by the `[:, :-1, :]` slice, may differ), then the fused
representation equals `v` exactly: the mean of a constant grid is that
constant. -/
theorem C9_averagingIdempotent (t : ℕ → ℕ → ℚ) (R d : ℕ) (v : ℕ → ℚ) (hR : 2 ≤ R)
    (hconst : ∀ r, r < R - 1 → t r d = v d) :
    fusionAveraging t R d = v d := by
  unfold fusionAveraging
  have hsum : ∑ r ∈ Finset.range (R - 1), t r d = ((R - 1 : ℕ) : ℚ) * v d := by
    rw [Finset.sum_congr rfl (fun r hr => hconst r (Finset.mem_range.mp hr))]
    rw [Finset.sum_const, Finset.card_range, nsmul_eq_mul]
  have hne : ((R : ℚ) - 1) ≠ 0 := by
    have : (2 : ℚ) ≤ (R : ℚ) := by exact_mod_cast hR
    linarith
  rw [hsum, Nat.cast_sub (by omega : 1 ≤ R), Nat.cast_one, mul_div_cancel_left₀ _ hne]

/-- Witness for C9: a grid that is constantly 5 on its two real rows
fuses to 5. -/
theorem C9_averagingIdempotent_witness :
    (2 : ℕ) ≤ 3 ∧ fusionAveraging (fun _ _ => (5 : ℚ)) 3 0 = (fun _ : ℕ => (5 : ℚ)) 0 :=
  ⟨by decide, C9_averagingIdempotent (fun _ _ => 5) 3 0 (fun _ => 5) (by decide)
    (fun _ _ => rfl)⟩

/-! ## C2: masked cells hold the one MASK embedding vector -/

/-- C2: after the embedding step of `Model.forward`, every cell of a
time bin whose trailing mask flag is set holds exactly the learned MASK
embedding vector `special_embeddings(0)` (lines 681-684): the value is
the same lookup vector for every masked position of the batch,
whatever the value and count content of the cell was before masking.
(The event-mask overwrite of lines 687-688 writes the same vector, so
it cannot disturb this.) -/
theorem C2_maskedCellsUniform (p : ModelEmbed) (x : BatchState) (nRows nVars b r c d : ℕ)
    (hr : r < nRows) (hm : x.feats b r (2 * nVars) = 1) :
    psiCell p x nRows nVars b r c d = p.specialEmbeddings 0 d := by
  unfold psiCell
  by_cases h1 : p.predictEvents = true ∧ r ≤ nRows ∧ c < nVars ∧
      x.feats b (if r = nRows then 0 else r) (nVars + c) = -1
  · rw [if_pos h1]
  · rw [if_neg h1, if_pos ⟨hr, hm⟩]

/-- Concrete model parameters for the forward-pass witnesses. -/
def exampleEmbed : ModelEmbed :=
  ⟨true, fun k => (k : ℚ), fun k d => (k : ℚ) + (d : ℚ) + 5,
    fun i vv cc _ => vv + cc + (i : ℚ), fun s d => s d⟩

/-- Concrete batch whose mask flag column (index 4 for `nVars = 2`) is
set on every row. -/
def exampleBatch : BatchState :=
  ⟨fun _ _ => 0, fun _ _ c => if c = 4 then 1 else 3, fun _ _ => 0⟩

/-- Witness for C2: with `nVars = 2`, `nRows = 2`, the masked cell
(batch 0, row 0, column 1) holds the MASK embedding vector. -/
theorem C2_maskedCellsUniform_witness :
    (0 : ℕ) < 2 ∧ exampleBatch.feats 0 0 (2 * 2) = 1 ∧
    psiCell exampleEmbed exampleBatch 2 2 0 0 1 0
      = exampleEmbed.specialEmbeddings 0 0 :=
  ⟨by decide, by simp [exampleBatch],
    C2_maskedCellsUniform exampleEmbed exampleBatch 2 2 0 0 1 0 (by decide)
      (by simp [exampleBatch])⟩

/-! ## C7: forward is not pure on its input batch -/

/-- Concrete batch whose count columns hold 20 (clipped to 15 by the
count-embedding lookup). -/
def exampleBatch2 : BatchState :=
  ⟨fun _ _ => 0, fun _ _ _ => 20, fun _ _ => 0⟩

/-- C7: the claim that `Model.forward` leaves the input batch tensors
unchanged fails on the code: line 660 writes the looked-up count
embeddings into the count half of the time-series tensor in place.
Concretely, a count entry 20 is replaced by the embedding of the
clipped index 15, which differs from 20 already for the identity
embedding table. -/
theorem C7_counterexample :
    (forwardBatchEffect exampleEmbed 2 exampleBatch2).feats 0 0 2
      ≠ exampleBatch2.feats 0 0 2 := by
  simp only [forwardBatchEffect, exampleEmbed, exampleBatch2, nObsInd, pyTrunc]
  norm_num
  rw [show Int.toNat 15 = 15 from rfl]
  norm_num

/-- C7 (amended): `Model.forward` leaves the static tensor and the
bin-time vector of the input batch unchanged, and does not modify the
value columns (`c < nVars`) or the trailing mask-flag column
(`c = 2 * nVars`) of the time-series tensor; the count columns
(`nVars ≤ c < 2 * nVars`), however, are overwritten in place with the
count-embedding values (line 660), so the transform is not pure on its
input. -/
theorem C7_frameEffect (p : ModelEmbed) (nVars : ℕ) (x : BatchState) (b r c : ℕ) :
    (forwardBatchEffect p nVars x).static = x.static ∧
    (forwardBatchEffect p nVars x).times = x.times ∧
    ((c < nVars ∨ 2 * nVars ≤ c) →
      (forwardBatchEffect p nVars x).feats b r c = x.feats b r c) := by
  refine ⟨rfl, rfl, fun hc => ?_⟩
  unfold forwardBatchEffect
  simp only
  rw [if_neg (by omega)]

/-- Witness for C7: the value column 0 (with `nVars = 2`) passes
through unchanged. -/
theorem C7_frameEffect_witness :
    ((0 : ℕ) < 2 ∨ 2 * 2 ≤ 0) ∧
    ((forwardBatchEffect exampleEmbed 2 exampleBatch2).static = exampleBatch2.static ∧
      (forwardBatchEffect exampleEmbed 2 exampleBatch2).times = exampleBatch2.times ∧
      (((0 : ℕ) < 2 ∨ 2 * 2 ≤ 0) →
        (forwardBatchEffect exampleEmbed 2 exampleBatch2).feats 0 0 0
          = exampleBatch2.feats 0 0 0)) :=
  ⟨Or.inl (by decide), C7_frameEffect exampleEmbed 2 exampleBatch2 0 0 0⟩

/-! ## C6: checkpoint loading -/

lemma sdLookup_cons (kv : String × CkptParam) (rest : StateDict) (k : String) :
    sdLookup (kv :: rest) k = if kv.1 == k then some kv.2 else sdLookup rest k := by
  unfold sdLookup
  by_cases h : kv.1 == k <;> simp [List.find?, h]

lemma sdLookup_append (l1 l2 : StateDict) (k : String) :
    sdLookup (l1 ++ l2) k = (sdLookup l1 k).or (sdLookup l2 k) := by
  unfold sdLookup
  rw [List.find?_append]
  cases List.find? (fun kv => kv.1 == k) l1 <;> simp

/-- A key the checkpoint already holds keeps its checkpoint value
through the first loop (lines 926-929), which only inserts missing
keys. -/
lemma sdLookup_loadPhase1_left (ckpt model : StateDict) (k : String) (v : CkptParam)
    (h : sdLookup ckpt k = some v) :
    sdLookup (loadPhase1 ckpt model) k = some v := by
  unfold loadPhase1
  rw [sdLookup_append, h]
  rfl

/-- The second loop (lines 932-942) transforms the stored value of each
key in place and never removes a key. -/
lemma sdLookup_loadPhase2 (model sd : StateDict) (k : String) :
    sdLookup (loadPhase2 model sd) k = (sdLookup sd k).map (ckptTransform model k) := by
  induction sd with
  | nil => rfl
  | cons kv rest ih =>
      simp only [loadPhase2, List.map_cons] at ih ⊢
      rw [sdLookup_cons, sdLookup_cons]
      by_cases h : kv.1 == k
      · have hk : kv.1 = k := by simpa using h
        rw [if_pos (by simpa using h), if_pos h]
        simp [hk]
      · rw [if_neg (by simpa using h), if_neg h, ih]

/-- A key whose stored entry triggers a report is in the report list. -/
lemma mem_loadReports (model sd : StateDict) (k : String) (v : CkptParam)
    (hfind : sdLookup sd k = some v) (hcond : ckptReportB model k v = true) :
    k ∈ loadReports model sd := by
  unfold sdLookup at hfind
  cases hf : List.find? (fun kv => kv.1 == k) sd with
  | none => rw [hf] at hfind; exact absurd hfind (by simp)
  | some kv =>
      rw [hf] at hfind
      have hk1 : kv.1 = k := by simpa using List.find?_some hf
      have hv : kv.2 = v := by simpa using hfind
      have hmem : kv ∈ sd := List.mem_of_find?_eq_some hf
      unfold loadReports
      refine List.mem_filterMap.mpr ⟨kv, hmem, ?_⟩
      rw [hk1, hv, if_pos hcond]

/-- A freshly initialized model state dict with one non-head key. -/
def modelSD : StateDict := [(("weight" : String), ⟨[2], [1, 1]⟩)]

/-- A checkpoint holding that key plus a stale key absent from the
current architecture. -/
def ckptSD : StateDict :=
  [(("weight" : String), ⟨[2], [1, 1]⟩), (("legacy" : String), ⟨[3], [0, 0, 0]⟩)]

/-- C6: the claim that entries absent from the current architecture are
dropped fails on the code: lines 940-942 only print
`Dropping parameter k` and never remove the key, so a stale checkpoint
entry survives `on_load_checkpoint` with its checkpoint value. -/
theorem C6_counterexample :
    sdLookup modelSD ("legacy") = none ∧
    sdLookup (onLoadCheckpoint modelSD ckptSD) ("legacy")
      = some ⟨[3], [0, 0, 0]⟩ := by
  constructor
  · rfl
  · rfl

/-- C6 (amended): when `Model.on_load_checkpoint` meets a
`head`-prefixed parameter whose checkpoint shape differs from the
current model shape, the freshly initialized model value is kept for
that key and the adjustment is reported; every other key present in
both dicts keeps its checkpoint value bit-identically; a key absent
from the current architecture is reported but is left in the state
dict with its checkpoint value - it is not dropped. -/
theorem C6_checkpointAdjustments (model ckpt : StateDict) (k : String)
    (cv : CkptParam) (hck : sdLookup ckpt k = some cv) :
    (∀ mv, sdLookup model k = some mv →
      ((startsWithHead k ∧ cv.shape ≠ mv.shape) →
        sdLookup (onLoadCheckpoint model ckpt) k = some mv ∧
        k ∈ onLoadReportKeys model ckpt) ∧
      (¬ (startsWithHead k ∧ cv.shape ≠ mv.shape) →
        sdLookup (onLoadCheckpoint model ckpt) k = some cv)) ∧
    (sdLookup model k = none →
      sdLookup (onLoadCheckpoint model ckpt) k = some cv ∧
      k ∈ onLoadReportKeys model ckpt) := by
  have h1 : sdLookup (loadPhase1 ckpt model) k = some cv :=
    sdLookup_loadPhase1_left ckpt model k cv hck
  constructor
  · intro mv hmv
    constructor
    · rintro ⟨hpr, hsh⟩
      constructor
      · unfold onLoadCheckpoint
        rw [sdLookup_loadPhase2, h1]
        unfold ckptTransform
        rw [hmv]
        simp [hpr, hsh]
      · unfold onLoadReportKeys
        refine mem_loadReports model _ k cv h1 ?_
        unfold ckptReportB
        rw [hmv]
        simp [hpr, hsh]
    · intro hn
      unfold onLoadCheckpoint
      rw [sdLookup_loadPhase2, h1]
      unfold ckptTransform
      rw [hmv]
      simp only [Option.map_some]
      simp
      intro hp hne
      exact absurd ⟨hp, hne⟩ hn
  · intro hn
    constructor
    · unfold onLoadCheckpoint
      rw [sdLookup_loadPhase2, h1]
      unfold ckptTransform
      rw [hn]
      rfl
    · unfold onLoadReportKeys
      refine mem_loadReports model _ k cv h1 ?_
      unfold ckptReportB
      rw [hn]

/-- A model whose head parameter has a new shape. -/
def modelHeadSD : StateDict := [(("head.w" : String), ⟨[4], [0, 0, 0, 0]⟩)]

/-- An older checkpoint whose head parameter has the old shape. -/
def ckptHeadSD : StateDict := [(("head.w" : String), ⟨[2], [7, 7]⟩)]

/-- Witness for C6: a head-shape mismatch keeps the freshly
initialized model head value and reports the key. -/
theorem C6_checkpointAdjustments_witness :
    sdLookup ckptHeadSD ("head.w") = some ⟨[2], [7, 7]⟩ ∧
    sdLookup modelHeadSD ("head.w") = some ⟨[4], [0, 0, 0, 0]⟩ ∧
    (startsWithHead ("head.w") ∧ ([2] : List ℕ) ≠ [4]) ∧
    (sdLookup (onLoadCheckpoint modelHeadSD ckptHeadSD) ("head.w")
        = some ⟨[4], [0, 0, 0, 0]⟩ ∧
      ("head.w" : String) ∈ onLoadReportKeys modelHeadSD ckptHeadSD) :=
  ⟨rfl, rfl, ⟨by decide, by simp⟩,
    ((C6_checkpointAdjustments modelHeadSD ckptHeadSD ("head.w") ⟨[2], [7, 7]⟩ rfl).1
      ⟨[4], [0, 0, 0, 0]⟩ rfl).1 ⟨by decide, by simp⟩⟩
